import Mathlib

/-!
Verification development for the Intrusion-Detection repository.

The embedding translates, over the rationals, the parts of the code that the
checked properties are about:

* `backend/app/ml/crow_search.py` — the single-objective Crow Search
  optimizer (`CrowSearchOptimizer`): population initialization, the movement
  rule with bounds projection, and the main `optimize` loop.
* `backend/app/ml/enhanced_csa_optimizer.py` — the multi-objective extension
  (`EnhancedCSAOptimizer`): weighted fitness aggregation, Pareto dominance and
  Pareto-front maintenance, adaptive CSA parameters, and the
  `optimize_multi_objective` loop with per-candidate evaluation outcomes.
* `backend/app/ml/sgm_analyzer.py` — the density anomaly model
  (`SGMNetworkAnalyzer`): threshold calibration from baseline scores,
  anomaly flagging and severity grading, the bounded adaptation buffer, and
  the `adapt_model` precondition logic.

Machine floats are modelled by `ℚ`; the float value `-inf` used for fitness
is modelled by `⊥` in `WithBot ℚ`.  Randomness (numpy draws), wall-clock
time, and the external sklearn estimators (cross-validation scores, the EM
fit of the Gaussian mixture with its `score_samples` log-density, the scaler
and PCA transforms) are externalized as explicit inputs: streams of draws,
abstract score functions and fitted-parameter records passed to the embedded
functions, exactly where the source calls out to the library.
-/

namespace IDS

/-- Objective of the multi-objective search, from the dataclass
`OptimizationObjective` in `enhanced_csa_optimizer.py`. -/
structure OptimizationObjective where
  name : String
  weight : ℚ
  minimize : Bool
  target_range : Option (ℚ × ℚ)
deriving Repr, DecidableEq

/-- One member of the Pareto front, from the dict literal built in
`EnhancedCSAOptimizer._update_pareto_front` (`parameters`, `objectives`,
`fitness`). Objective-score mappings are association lists keyed by
objective name, as the Python dicts are. -/
structure ParetoSolution where
  parameters : List (String × ℚ)
  objectives : List (String × ℚ)
  fitness : ℚ
deriving Repr, DecidableEq

/-- Numpy `np.clip(x, lo, hi)`: values below `lo` go to `lo`, then values
above `hi` go to `hi`. -/
def clip (x lo hi : ℚ) : ℚ := min hi (max lo x)

/-- Score adjustment inside `_calculate_weighted_fitness`
(`enhanced_csa_optimizer.py` lines 460-472): invert when the objective is a
minimization, then renormalize and clip when a `target_range` is set. -/
def adjust_score (o : OptimizationObjective) (score : ℚ) : ℚ :=
  let s := if o.minimize then 1 - score else score
  match o.target_range with
  | none => s
  | some lohi => clip ((s - lohi.1) / (lohi.2 - lohi.1)) 0 1

/-- Method `EnhancedCSAOptimizer._calculate_weighted_fitness`: accumulate
`weight * adjusted_score` and the total weight over the objectives whose
name appears in the score mapping, then normalize (0 when the accumulated
weight is not positive). -/
def calculate_weighted_fitness (objectives : List OptimizationObjective)
    (objective_scores : List (String × ℚ)) : ℚ :=
  let acc := objectives.foldl
    (fun (a : ℚ × ℚ) o =>
      match objective_scores.lookup o.name with
      | none => a
      | some s => (a.1 + o.weight * adjust_score o s, a.2 + o.weight))
    (0, 0)
  if 0 < acc.2 then acc.1 / acc.2 else 0

/-- Loop body of `EnhancedCSAOptimizer._dominates`: walk the objective list
carrying the `better_in_any` flag, returning `false` as soon as `scores1` is
strictly worse on some shared objective (the early `return False`). -/
def dominates_go (objectives : List OptimizationObjective)
    (scores1 scores2 : List (String × ℚ)) (better_in_any : Bool) : Bool :=
  match objectives with
  | [] => better_in_any
  | o :: rest =>
    match scores1.lookup o.name, scores2.lookup o.name with
    | some s1, some s2 =>
      if o.minimize then
        if s2 < s1 then false
        else if s1 < s2 then dominates_go rest scores1 scores2 true
        else dominates_go rest scores1 scores2 better_in_any
      else
        if s1 < s2 then false
        else if s2 < s1 then dominates_go rest scores1 scores2 true
        else dominates_go rest scores1 scores2 better_in_any
    | _, _ => dominates_go rest scores1 scores2 better_in_any

/-- Method `EnhancedCSAOptimizer._dominates`: Pareto dominance of `scores1` over
`scores2` with respect to the configured objectives. -/
def dominates (objectives : List OptimizationObjective)
    (scores1 scores2 : List (String × ℚ)) : Bool :=
  dominates_go objectives scores1 scores2 false

/-- Ordering used by the capacity eviction in `_update_pareto_front`
(`sort(key=lambda x: x['fitness'], reverse=True)`). -/
def fit_ge (a b : ParetoSolution) : Prop := b.fitness ≤ a.fitness

instance : DecidableRel fit_ge := fun a b =>
  inferInstanceAs (Decidable (b.fitness ≤ a.fitness))

instance : IsTotal ParetoSolution fit_ge :=
  ⟨fun a b => (le_total b.fitness a.fitness).imp id id⟩

instance : IsTrans ParetoSolution fit_ge :=
  ⟨fun _ _ _ hab hbc => le_trans hbc hab⟩

/-- Method `EnhancedCSAOptimizer._update_pareto_front`: the new solution is dropped
if some existing member dominates it; otherwise the members it dominates are
removed, it is appended, and when the front exceeds 50 members the front is
sorted by fitness descending and truncated to 50. -/
def update_pareto_front (objectives : List OptimizationObjective)
    (pareto_front : List ParetoSolution)
    (params objective_scores : List (String × ℚ)) (fitness : ℚ) :
    List ParetoSolution :=
  let solution : ParetoSolution := ⟨params, objective_scores, fitness⟩
  if pareto_front.any (fun e => dominates objectives e.objectives objective_scores) then
    pareto_front
  else
    let kept := pareto_front.filter
      (fun e => !(dominates objectives objective_scores e.objectives))
    let front2 := kept ++ [solution]
    if 50 < front2.length then (front2.insertionSort fit_ge).take 50
    else front2

/-- Named parameter bounds, from the `parameter_bounds` dict of
`CrowSearchOptimizer` (name ↦ (min, max)). -/
abbrev Bounds : Type := List (String × ℚ × ℚ)

/-- Method `CrowSearchOptimizer._apply_bounds`: clip each axis of a position to its
declared (min, max). -/
def apply_bounds (bounds : Bounds) (position : List ℚ) : List ℚ :=
  List.zipWith (fun (b : String × ℚ × ℚ) p => clip p b.2.1 b.2.2) bounds position

/-- Method `CrowSearchOptimizer._generate_random_position` (also the row formula of
`_initialize_population`): scale a uniform draw `u ∈ [0,1]` per axis to
`u * (max - min) + min`.  The draws are an explicit input. -/
def generate_random_position (bounds : Bounds) (us : List ℚ) : List ℚ :=
  List.zipWith (fun (b : String × ℚ × ℚ) u => u * (b.2.2 - b.2.1) + b.2.1) bounds us

/-- Method `CrowSearchOptimizer._initialize_population`: one scaled uniform draw per
candidate row. -/
def initialize_population (bounds : Bounds) (usMat : List (List ℚ)) :
    List (List ℚ) :=
  usMat.map (generate_random_position bounds)

/-- Python 3 `round` (half to even), used by `int(round(v))` in
`_position_to_params`. -/
def round_half_even (q : ℚ) : ℤ :=
  let f := ⌊q⌋
  let r := q - (f : ℚ)
  if r < 1/2 then f
  else if (1 : ℚ)/2 < r then f + 1
  else if f % 2 = 0 then f else f + 1

/-- Names treated as integer parameters in
`EnhancedCSAOptimizer._position_to_params`. -/
def integer_param_names : List String :=
  ["xgb_n_estimators", "xgb_max_depth", "sgm_n_components", "sgm_window_size",
   "sgm_covariance_type_encoded"]

/-- Method `EnhancedCSAOptimizer._position_to_params`: decode a position vector into
a named parameter mapping, rounding the integer-kind axes. -/
def position_to_params (bounds : Bounds) (position : List ℚ) :
    List (String × ℚ) :=
  List.zipWith
    (fun (b : String × ℚ × ℚ) v =>
      if b.1 ∈ integer_param_names then (b.1, ((round_half_even v : ℤ) : ℚ))
      else (b.1, v))
    bounds position

/-- Per-candidate randomness consumed by one step of
`CrowSearchOptimizer._update_population`: the followed crow `j`, the
awareness draw `r`, the flight draw `r_fl`, and the uniform draws used when
the followed crow is aware and the candidate is relocated. -/
structure MoveRand where
  j : ℕ
  r : ℚ
  rl : ℚ
  us : List ℚ
deriving Repr, Inhabited

/-- Body of the loop in `CrowSearchOptimizer._update_population` for one
candidate: when `r ≥ awareness_probability` fly toward crow `j`'s remembered
position, otherwise relocate to a fresh random position; either way the
result is passed through `_apply_bounds`. -/
def move_candidate (bounds : Bounds) (awareness_probability flight_length : ℚ)
    (population memory_positions : List (List ℚ)) (i : ℕ) (mr : MoveRand) :
    List ℚ :=
  let pos := population.getD i []
  if awareness_probability ≤ mr.r then
    apply_bounds bounds
      (List.zipWith (fun p m => p + mr.rl * flight_length * (m - p)) pos
        (memory_positions.getD mr.j []))
  else
    apply_bounds bounds (generate_random_position bounds mr.us)

/-- Outcome of one parallel evaluation unit in
`optimize_multi_objective`: the `future.result` call either returns the
objective scores, raises `TimeoutError`, or raises some other exception. -/
inductive EvalOutcome where
  | ok (objective_scores : List (String × ℚ))
  | timeout
  | err
deriving Repr, DecidableEq

/-- One entry of `convergence_history` in `optimize_multi_objective`
(the fields the embedding tracks). -/
structure ConvergenceRecord where
  iteration : ℕ
  best_fitness : WithBot ℚ
  pareto_size : ℕ
deriving DecidableEq

/-- Mutable state of `EnhancedCSAOptimizer` during a run of
`optimize_multi_objective`. -/
structure MOState where
  bounds : Bounds
  awareness_probability : ℚ
  flight_length : ℚ
  initial_awareness_probability : ℚ
  initial_flight_length : ℚ
  population : List (List ℚ)
  fitness_values : List (WithBot ℚ)
  memory_positions : List (List ℚ)
  memory_fitness : List (WithBot ℚ)
  best_position : Option (List ℚ)
  best_fitness : WithBot ℚ
  pareto_front : List ParetoSolution
  convergence_history : List ConvergenceRecord

/-- Result collection for one candidate in the evaluation loop of
`optimize_multi_objective` (lines 168-211): a timeout or error stores
`float('-inf')`; a returned score vector is aggregated, stored, and promotes
the candidate's memory and the Pareto front when it improves on memory. -/
def collect_one (objectives : List OptimizationObjective) (st : MOState)
    (i : ℕ) (oc : EvalOutcome) : MOState :=
  match oc with
  | .timeout => { st with fitness_values := st.fitness_values.set i ⊥ }
  | .err => { st with fitness_values := st.fitness_values.set i ⊥ }
  | .ok objective_scores =>
    let fitness : ℚ := calculate_weighted_fitness objectives objective_scores
    let st1 := { st with
      fitness_values := st.fitness_values.set i ((fitness : ℚ) : WithBot ℚ) }
    if st1.memory_fitness.getD i ⊥ < ((fitness : ℚ) : WithBot ℚ) then
      { st1 with
        memory_positions := st1.memory_positions.set i (st1.population.getD i []),
        memory_fitness := st1.memory_fitness.set i ((fitness : ℚ) : WithBot ℚ),
        pareto_front := update_pareto_front objectives st1.pareto_front
          (position_to_params st1.bounds (st1.population.getD i []))
          objective_scores fitness }
    else st1

/-- Collection of all evaluation results of one iteration, candidate by
candidate in index order. -/
def collect_go (objectives : List OptimizationObjective) (st : MOState)
    (i : ℕ) : List EvalOutcome → MOState
  | [] => st
  | oc :: rest => collect_go objectives (collect_one objectives st i oc) (i + 1) rest

/-- Numpy `np.argmax`: index of the first occurrence of the maximum. -/
def argmax_go (l : List (WithBot ℚ)) (i best_i : ℕ) (best : WithBot ℚ) : ℕ :=
  match l with
  | [] => best_i
  | x :: rest =>
    if best < x then argmax_go rest (i + 1) i x
    else argmax_go rest (i + 1) best_i best

/-- Index of the first maximum of a fitness array (0 for the empty list). -/
def argmax : List (WithBot ℚ) → ℕ
  | [] => 0
  | x :: rest => argmax_go rest 1 0 x

/-- Global-best update of `optimize_multi_objective` (lines 213-217). -/
def update_global_best (st : MOState) : MOState :=
  let best_idx := argmax st.fitness_values
  let m := st.fitness_values.getD best_idx ⊥
  if st.best_fitness < m then
    { st with best_fitness := m,
              best_position := some (st.population.getD best_idx []) }
  else st

/-- Method `CrowSearchOptimizer._update_population`: every candidate moves, using
the pre-move population and memory. -/
def update_population (bounds : Bounds) (awareness_probability flight_length : ℚ)
    (population memory_positions : List (List ℚ)) (moves : List MoveRand) :
    List (List ℚ) :=
  (List.range population.length).map
    (fun i => move_candidate bounds awareness_probability flight_length
      population memory_positions i (moves.getD i default))

/-- Method `EnhancedCSAOptimizer._adapt_csa_parameters`: linear decay of awareness
probability and flight length with floors 0.05 and 1.0. -/
def adapt_csa_parameters (st : MOState) (iteration max_iterations : ℕ) : MOState :=
  let progress : ℚ := (iteration : ℚ) / (max_iterations : ℚ)
  let ap := st.initial_awareness_probability * (1 - 1/2 * progress)
  let fl := st.initial_flight_length * (1 - 3/10 * progress)
  { st with awareness_probability := max (1/20) ap,
            flight_length := max 1 fl }

/-- Externalized per-iteration inputs of `optimize_multi_objective`: the
evaluation outcomes of the population and the movement randomness. -/
structure IterationInput where
  outcomes : List EvalOutcome
  moves : List MoveRand

/-- One iteration of the loop in `optimize_multi_objective` (lines 155-244):
collect evaluation results, update the global best, move the population,
adapt the CSA parameters when enabled, and append a convergence record. -/
def iteration_step (objectives : List OptimizationObjective)
    (max_iterations : ℕ) (adaptive_parameters : Bool) (st : MOState)
    (iteration : ℕ) (inp : IterationInput) : MOState :=
  let st1 := collect_go objectives st 0 inp.outcomes
  let st2 := update_global_best st1
  let st3 := { st2 with
    population := update_population st2.bounds st2.awareness_probability
      st2.flight_length st2.population st2.memory_positions inp.moves }
  let st4 := if adaptive_parameters then
    adapt_csa_parameters st3 iteration max_iterations else st3
  { st4 with convergence_history := st4.convergence_history ++
      [⟨iteration + 1, st4.best_fitness, st4.pareto_front.length⟩] }

/-- State built by `__init__` plus `_initialize_population`: positions from
scaled uniform draws, memory a copy of the positions, fitness arrays filled
with `float('-inf')`, empty Pareto front and history. -/
def mk_initial_state (bounds : Bounds) (awareness_probability flight_length : ℚ)
    (usMat : List (List ℚ)) : MOState :=
  let pop := initialize_population bounds usMat
  { bounds := bounds,
    awareness_probability := awareness_probability,
    flight_length := flight_length,
    initial_awareness_probability := awareness_probability,
    initial_flight_length := flight_length,
    population := pop,
    fitness_values := List.replicate pop.length ⊥,
    memory_positions := pop,
    memory_fitness := List.replicate pop.length ⊥,
    best_position := none,
    best_fitness := ⊥,
    pareto_front := [],
    convergence_history := [] }

/-- The `OptimizationResult` dataclass (the fields the embedding tracks). -/
structure OptimizationResult where
  best_parameters : List (String × ℚ)
  best_fitness : WithBot ℚ
  convergence_history : List ConvergenceRecord
  pareto_front : List ParetoSolution
  iterations_completed : ℕ

/-- Method `EnhancedCSAOptimizer.optimize_multi_objective`: initialize the
population, run `max_iterations` iterations, and package the result
(`iterations_completed` is reported as `max_iterations`, line 263). -/
def optimize_multi_objective (objectives : List OptimizationObjective)
    (bounds : Bounds) (awareness_probability flight_length : ℚ)
    (max_iterations : ℕ) (adaptive_parameters : Bool)
    (usMat : List (List ℚ)) (inputs : ℕ → IterationInput) :
    OptimizationResult :=
  let final := (List.range max_iterations).foldl
    (fun st it => iteration_step objectives max_iterations adaptive_parameters
      st it (inputs it))
    (mk_initial_state bounds awareness_probability flight_length usMat)
  { best_parameters :=
      match final.best_position with
      | some p => position_to_params final.bounds p
      | none => [],
    best_fitness := final.best_fitness,
    convergence_history := final.convergence_history,
    pareto_front := final.pareto_front,
    iterations_completed := max_iterations }

/-- Mutable state of the base `CrowSearchOptimizer` during `optimize`.
Its convergence history records the best fitness per iteration. -/
structure SOState where
  bounds : Bounds
  awareness_probability : ℚ
  flight_length : ℚ
  population : List (List ℚ)
  fitness_values : List (WithBot ℚ)
  memory_positions : List (List ℚ)
  memory_fitness : List (WithBot ℚ)
  best_position : Option (List ℚ)
  best_fitness : WithBot ℚ
  convergence_history : List (WithBot ℚ)

/-- Per-candidate body of the evaluation loop in
`CrowSearchOptimizer.optimize` (lines 100-113): store the fitness, promote
the candidate memory, promote the global best.  The fitness value is an
explicit input (`_evaluate_parameters` returns the cross-validation score or
`float('-inf')` on failure). -/
def so_collect_one (st : SOState) (i : ℕ) (fitness : WithBot ℚ) : SOState :=
  let st1 := { st with fitness_values := st.fitness_values.set i fitness }
  let st2 :=
    if st1.memory_fitness.getD i ⊥ < fitness then
      { st1 with
        memory_positions := st1.memory_positions.set i (st1.population.getD i []),
        memory_fitness := st1.memory_fitness.set i fitness }
    else st1
  if st2.best_fitness < fitness then
    { st2 with best_fitness := fitness,
               best_position := some (st2.population.getD i []) }
  else st2

/-- Evaluation of the whole population in `CrowSearchOptimizer.optimize`,
candidate by candidate in index order. -/
def so_collect_go (st : SOState) (i : ℕ) : List (WithBot ℚ) → SOState
  | [] => st
  | f :: rest => so_collect_go (so_collect_one st i f) (i + 1) rest

/-- One iteration of `CrowSearchOptimizer.optimize` (lines 98-124): evaluate
the population, move it, and append the best fitness to the convergence
history. -/
def so_iteration (st : SOState) (fits : List (WithBot ℚ))
    (moves : List MoveRand) : SOState :=
  let st1 := so_collect_go st 0 fits
  let st2 := { st1 with
    population := update_population st1.bounds st1.awareness_probability
      st1.flight_length st1.population st1.memory_positions moves }
  { st2 with convergence_history := st2.convergence_history ++ [st2.best_fitness] }

/-- Initial state of `CrowSearchOptimizer.optimize` after
`_initialize_population`. -/
def so_initial_state (bounds : Bounds) (awareness_probability flight_length : ℚ)
    (usMat : List (List ℚ)) : SOState :=
  let pop := initialize_population bounds usMat
  { bounds := bounds,
    awareness_probability := awareness_probability,
    flight_length := flight_length,
    population := pop,
    fitness_values := List.replicate pop.length ⊥,
    memory_positions := pop,
    memory_fitness := List.replicate pop.length ⊥,
    best_position := none,
    best_fitness := ⊥,
    convergence_history := [] }

/-- The main loop of `CrowSearchOptimizer.optimize`: `max_iterations`
iterations over externalized fitness values and movement randomness. -/
def so_run (bounds : Bounds) (awareness_probability flight_length : ℚ)
    (max_iterations : ℕ) (usMat : List (List ℚ))
    (inputs : ℕ → List (WithBot ℚ) × List MoveRand) : SOState :=
  (List.range max_iterations).foldl
    (fun st it => so_iteration st (inputs it).1 (inputs it).2)
    (so_initial_state bounds awareness_probability flight_length usMat)

/-- One entry of `SGMNetworkAnalyzer.adaptation_buffer`
(`_update_adaptation_buffer`): features, anomaly score, anomaly flag,
timestamp. -/
structure ReplayEntry where
  features : List ℚ
  score : ℚ
  is_anomaly : Bool
  timestamp : ℕ
deriving Repr, DecidableEq

/-- Fitted parameters of the external Gaussian mixture (`means_`,
`covariances_`, `weights_`), as blended by `adapt_model`. -/
structure GMMParams where
  means : List (List ℚ)
  covariances : List (List (List ℚ))
  weights : List ℚ
deriving Repr, DecidableEq

/-- Baseline statistics computed by `_calculate_baseline_statistics`.
Standard deviations are irrational over `ℚ`, so the embedding carries the
variances (`std = sqrt var`); nothing proved here depends on them. -/
structure BaselineStatistics where
  sample_count : ℕ
  feature_means : List ℚ
  feature_vars : List ℚ
  score_mean : ℚ
  score_var : ℚ
  p95 : ℚ
  p99 : ℚ
  p999 : ℚ
deriving Repr, DecidableEq

/-- State of `SGMNetworkAnalyzer`.  `log_density` stands for the composite
`gmm_model.score_samples ∘ _preprocess_data(·, fit=False)` pipeline of the
fitted model; it is installed by `fit` and replaced by `adapt_model` from
externally supplied fit results. -/
structure SGMState where
  n_components : ℕ
  covariance_type : String
  anomaly_threshold : ℚ
  adaptation_rate : ℚ
  window_size : ℕ
  gmm_model : Option GMMParams
  log_density : List ℚ → ℚ
  baseline_scores : List ℚ
  adaptation_buffer : List ReplayEntry
  is_fitted : Bool
  calculated_threshold : ℚ
  baseline_statistics : Option BaselineStatistics
  last_update : Option ℕ

/-- Numpy `np.percentile(data, q)` with the default linear interpolation:
at fractional rank `q/100 * (n-1)` between the two neighbouring order
statistics. -/
def percentile (data : List ℚ) (q : ℚ) : ℚ :=
  let sorted := data.insertionSort (· ≤ ·)
  match sorted with
  | [] => 0
  | _ =>
    let n := sorted.length
    let pos : ℚ := q / 100 * ((n : ℚ) - 1)
    let i : ℕ := (⌊pos⌋).toNat
    let frac : ℚ := pos - ((⌊pos⌋ : ℤ) : ℚ)
    let lo := sorted.getD i 0
    let hi := sorted.getD (i + 1) lo
    lo + frac * (hi - lo)

/-- Method `SGMNetworkAnalyzer._calculate_anomaly_threshold`: the
`(1 - anomaly_threshold) * 100` percentile of the baseline scores. -/
def calculate_anomaly_threshold (st : SGMState) : SGMState :=
  { st with calculated_threshold :=
      percentile st.baseline_scores ((1 - st.anomaly_threshold) * 100) }

/-- Arithmetic mean of a list (`np.mean`). -/
def list_mean (l : List ℚ) : ℚ := l.sum / (l.length : ℚ)

/-- Population variance of a list (square of `np.std`). -/
def list_var (l : List ℚ) : ℚ :=
  list_mean (l.map (fun x => (x - list_mean l) ^ 2))

/-- Method `SGMNetworkAnalyzer._calculate_baseline_statistics` (variances in place
of standard deviations, see `BaselineStatistics`). -/
def calculate_baseline_statistics (X : List (List ℚ)) (scores : List ℚ) :
    BaselineStatistics :=
  { sample_count := X.length,
    feature_means := X.transpose.map list_mean,
    feature_vars := X.transpose.map list_var,
    score_mean := list_mean scores,
    score_var := list_var scores,
    p95 := percentile scores 95,
    p99 := percentile scores 99,
    p999 := percentile scores (999/10) }

/-- Method `SGMNetworkAnalyzer.fit` (lines 79-141), with the external estimators
passed in: `preprocess` is the scaler+PCA pipeline fitted on `X`,
`log_dens` is `score_samples` of the EM-fitted mixture on preprocessed
rows, `fitted` its parameters, `now` the clock.  Baseline scores are the
negated log-densities of the preprocessed training rows; the threshold is
then calibrated from them. -/
def fit (st : SGMState) (X : List (List ℚ)) (preprocess : List ℚ → List ℚ)
    (log_dens : List ℚ → ℚ) (fitted : GMMParams) (now : ℕ) : SGMState :=
  let Xp := X.map preprocess
  let baseline := Xp.map (fun x => -(log_dens x))
  let st1 := { st with
    gmm_model := some fitted,
    log_density := fun x => log_dens (preprocess x),
    baseline_scores := baseline }
  let st2 := calculate_anomaly_threshold st1
  { st2 with
    baseline_statistics := some (calculate_baseline_statistics X baseline),
    is_fitted := true,
    last_update := some now }

/-- Method `SGMNetworkAnalyzer._calculate_anomaly_severity`: grade each score by
the chain threshold / 2×threshold / 3×threshold. -/
def calculate_anomaly_severity (calculated_threshold : ℚ) (anomaly_scores : List ℚ) :
    List String :=
  let high_threshold := calculated_threshold * 2
  let critical_threshold := calculated_threshold * 3
  anomaly_scores.map (fun score =>
    if score < calculated_threshold then "normal"
    else if score < high_threshold then "low"
    else if score < critical_threshold then "medium"
    else "high")

/-- One append of `_update_adaptation_buffer`: push the entry, and when the
buffer exceeds `window_size * 2` entries keep only the most recent
`window_size` (`buffer[-window_size:]`). -/
def buffer_push (window_size : ℕ) (buf : List ReplayEntry) (e : ReplayEntry) :
    List ReplayEntry :=
  let b := buf ++ [e]
  if window_size * 2 < b.length then b.drop (b.length - window_size) else b

/-- Method `SGMNetworkAnalyzer._update_adaptation_buffer`: push every scored sample
in order. -/
def update_adaptation_buffer (window_size : ℕ) (buf : List ReplayEntry)
    (entries : List ReplayEntry) : List ReplayEntry :=
  entries.foldl (buffer_push window_size) buf

/-- Fields of the result dict of `predict_anomaly` that the embedding
tracks. -/
structure AnomalyPrediction where
  anomaly_detected : Bool
  anomaly_count : ℕ
  anomaly_indices : List ℕ
  anomaly_scores : List ℚ
  anomaly_severity : List String
  threshold : ℚ
deriving Repr, DecidableEq

/-- Method `SGMNetworkAnalyzer.predict_anomaly` (lines 147-200): `none` models the
`ValueError` on an unfitted model; otherwise scores are negated
log-densities, a row is anomalous when its score exceeds the calibrated
threshold, severities are graded, and every scored row is appended to the
adaptation buffer. -/
def predict_anomaly (st : SGMState) (X : List (List ℚ)) (now : ℕ) :
    Option (SGMState × AnomalyPrediction) :=
  if st.is_fitted = false then none
  else
    let anomaly_scores := X.map (fun x => -(st.log_density x))
    let anomalies := anomaly_scores.map (fun s => decide (st.calculated_threshold < s))
    let severity := calculate_anomaly_severity st.calculated_threshold anomaly_scores
    let entries := (X.zip (anomaly_scores.zip anomalies)).map
      (fun p => ReplayEntry.mk p.1 p.2.1 p.2.2 now)
    let st1 := { st with adaptation_buffer :=
      update_adaptation_buffer st.window_size st.adaptation_buffer entries }
    some (st1,
      { anomaly_detected := anomalies.any id,
        anomaly_count := (anomalies.filter id).length,
        anomaly_indices := (List.range anomalies.length).filter
          (fun i => anomalies.getD i false),
        anomaly_scores := anomaly_scores,
        anomaly_severity := severity,
        threshold := st.calculated_threshold })

/-- Result dict of `adapt_model`. -/
structure AdaptationResult where
  adapted : Bool
  reason : Option String
  new_threshold : Option ℚ
  normal_samples_used : Option ℕ
deriving Repr, DecidableEq

/-- External inputs consumed by the adaptation path of `adapt_model`: the
EM fit of the temporary mixture on the buffered normal samples, the
synthetic points resampled from the blended components, the updated
score pipeline, and the clock. -/
structure AdaptationOracle where
  temp_model : GMMParams
  combined_data : List (List ℚ)
  new_log_density : List ℚ → ℚ
  now : ℕ

/-- Elementwise blend `old * (1 - rate) + new * rate` used on the mixture
parameters in `adapt_model`. -/
def blend (old_weight new_weight : ℚ) (a b : List ℚ) : List ℚ :=
  List.zipWith (fun x y => old_weight * x + new_weight * y) a b

/-- Method `SGMNetworkAnalyzer.adapt_model` (lines 206-303).  `Except.error` models
the `ValueError` on an unfitted model.  When the buffer has not reached
`window_size` and adaptation is not forced, or fewer than 10 buffered
samples are non-anomalous, the call returns `adapted=false` with the state
untouched.  Otherwise the mixture parameters are blended (covariances only
for `covariance_type == "full"`), the threshold is recalibrated from
resampled synthetic data, and the buffer is cleared. -/
def adapt_model (st : SGMState) (force_adaptation : Bool)
    (o : AdaptationOracle) : Except String (SGMState × AdaptationResult) :=
  if st.is_fitted = false then .error "SGM model is not fitted. Cannot adapt."
  else if st.adaptation_buffer.length < st.window_size ∧ force_adaptation = false then
    .ok (st, ⟨false, some "insufficient_data", none, none⟩)
  else
    let normal_samples := (st.adaptation_buffer.filter
      (fun e => !e.is_anomaly)).map (fun e => e.features)
    if normal_samples.length < 10 then
      .ok (st, ⟨false, some "insufficient_normal_samples", none, none⟩)
    else
      let old_weight := 1 - st.adaptation_rate
      let new_weight := st.adaptation_rate
      let old := st.gmm_model.getD ⟨[], [], []⟩
      let means' := List.zipWith (blend old_weight new_weight) old.means
        o.temp_model.means
      let covariances' :=
        if st.covariance_type = "full" then
          List.zipWith (fun a b => List.zipWith (blend old_weight new_weight) a b)
            old.covariances o.temp_model.covariances
        else old.covariances
      let weights' := blend old_weight new_weight old.weights o.temp_model.weights
      let new_baseline := o.combined_data.map (fun x => -(o.new_log_density x))
      let st1 := { st with
        gmm_model := some ⟨means', covariances', weights'⟩,
        log_density := o.new_log_density,
        baseline_scores := new_baseline }
      let st2 := calculate_anomaly_threshold st1
      let st3 := { st2 with adaptation_buffer := [], last_update := some o.now }
      .ok (st3, ⟨true, none, some st3.calculated_threshold,
        some normal_samples.length⟩)

/-- Number of buffered samples flagged non-anomalous (the `normal_samples`
count of `adapt_model`). -/
def count_normal (st : SGMState) : ℕ :=
  ((st.adaptation_buffer.filter (fun e => !e.is_anomaly)).map
    (fun e => e.features)).length

/-- Mutual non-domination of a Pareto front: no member dominates any other
member (the invariant of §3 of the specification; `dominates` is
irreflexive, so the members need not be distinguished). -/
def pairwise_nondominated (objectives : List OptimizationObjective)
    (front : List ParetoSolution) : Prop :=
  ∀ a ∈ front, ∀ b ∈ front,
    dominates objectives a.objectives b.objectives = false

/-- Fitness stored for a candidate by the result-collection loop of
`optimize_multi_objective`, as a function of its evaluation outcome. -/
def outcome_fitness (objectives : List OptimizationObjective)
    (oc : EvalOutcome) : WithBot ℚ :=
  match oc with
  | .ok s => ((calculate_weighted_fitness objectives s : ℚ) : WithBot ℚ)
  | .timeout => ⊥
  | .err => ⊥

/-- Monotonicity of the recorded best fitness along a multi-objective
convergence history. -/
def hist_mono_mo (h : List ConvergenceRecord) : Prop :=
  ∀ i j, i ≤ j → j < h.length →
    (h.getD i ⟨0, ⊥, 0⟩).best_fitness ≤ (h.getD j ⟨0, ⊥, 0⟩).best_fitness

/-- Monotonicity of the recorded best fitness along a single-objective
convergence history. -/
def hist_mono_so (h : List (WithBot ℚ)) : Prop :=
  ∀ i j, i ≤ j → j < h.length → h.getD i ⊥ ≤ h.getD j ⊥

/-- State produced by `SGMNetworkAnalyzer.__init__` with its default
arguments (`n_components=5, covariance_type='full', anomaly_threshold=0.05,
adaptation_rate=0.1, window_size=1000`). -/
def default_sgm : SGMState :=
  { n_components := 5, covariance_type := "full", anomaly_threshold := 1/20,
    adaptation_rate := 1/10, window_size := 1000, gmm_model := none,
    log_density := fun _ => 0, baseline_scores := [], adaptation_buffer := [],
    is_fitted := false, calculated_threshold := 0, baseline_statistics := none,
    last_update := none }

/-- A small fitted model state used to exercise the theorems on concrete
inputs: threshold 1, anomaly score of a row equal to its first feature. -/
def fitted_sgm : SGMState :=
  { default_sgm with
    is_fitted := true,
    calculated_threshold := 1,
    log_density := fun x => -(x.headD 0) }

/-- A trivial adaptation oracle for concrete instantiations. -/
def oracle0 : AdaptationOracle :=
  { temp_model := ⟨[], [], []⟩, combined_data := [], new_log_density := fun _ => 0,
    now := 0 }

/-- Concrete output of `predict_anomaly` on `fitted_sgm`, used to exercise
the scoring theorems. -/
def pC7 : SGMState × AnomalyPrediction :=
  (predict_anomaly fitted_sgm [[(5 : ℚ)], [0]] 0).getD
    (fitted_sgm, ⟨false, 0, [], [], [], 0⟩)

/-! ## Helper lemmas -/

theorem wf_foldl_eq (objective_scores : List (String × ℚ))
    (objectives : List OptimizationObjective) :
    ∀ a b : ℚ,
      (∀ o ∈ objectives, (objective_scores.lookup o.name).isSome) →
      objectives.foldl
        (fun (acc : ℚ × ℚ) o =>
          match objective_scores.lookup o.name with
          | none => acc
          | some s => (acc.1 + o.weight * adjust_score o s, acc.2 + o.weight))
        (a, b)
      = (a + (objectives.map (fun o =>
            o.weight * adjust_score o ((objective_scores.lookup o.name).getD 0))).sum,
         b + (objectives.map (fun o => o.weight)).sum) := by
  induction objectives with
  | nil => intro a b _; simp
  | cons o rest ih =>
    intro a b hs
    obtain ⟨s, hsome⟩ := Option.isSome_iff_exists.mp (hs o (List.mem_cons_self o rest))
    have ihr := ih (a + o.weight * adjust_score o s) (b + o.weight)
      (fun o' h' => hs o' (List.mem_cons_of_mem o h'))
    simp only [List.foldl_cons, hsome, List.map_cons, List.sum_cons, Option.getD_some]
    rw [ihr]
    simp only [Prod.mk.injEq]
    constructor <;> ring

theorem adjust_score_eq (o : OptimizationObjective) (s : ℚ) :
    adjust_score o s =
      match o.target_range with
      | none => if o.minimize then 1 - s else s
      | some lohi =>
          min 1 (max 0 (((if o.minimize then 1 - s else s) - lohi.1) /
            (lohi.2 - lohi.1))) := by
  cases h : o.target_range with
  | none => simp [adjust_score, h]
  | some lohi => simp [adjust_score, h, clip]

theorem buffer_push_le (w : ℕ) (buf : List ReplayEntry) (e : ReplayEntry)
    (h : buf.length ≤ w * 2) : (buffer_push w buf e).length ≤ w * 2 := by
  simp only [buffer_push]
  split
  · simp only [List.length_drop, List.length_append, List.length_cons,
      List.length_nil]
    omega
  · next h2 =>
      simp only [List.length_append, List.length_cons, List.length_nil] at h2 ⊢
      omega

theorem update_adaptation_buffer_le (w : ℕ) (entries : List ReplayEntry) :
    ∀ buf : List ReplayEntry, buf.length ≤ w * 2 →
      (update_adaptation_buffer w buf entries).length ≤ w * 2 := by
  induction entries with
  | nil => intro buf h; exact h
  | cons e rest ih =>
    intro buf h
    exact ih (buffer_push w buf e) (buffer_push_le w buf e h)

theorem buffer_push_trim (w : ℕ) (buf : List ReplayEntry) (e : ReplayEntry)
    (h : w * 2 < buf.length + 1) :
    buffer_push w buf e = (buf ++ [e]).drop (buf.length + 1 - w) ∧
    (buffer_push w buf e).length = w := by
  have hc : w * 2 < (buf ++ [e]).length := by
    simp only [List.length_append, List.length_cons, List.length_nil]; omega
  have he : buffer_push w buf e = (buf ++ [e]).drop ((buf ++ [e]).length - w) := by
    simp only [buffer_push]
    rw [if_pos hc]
  constructor
  · rw [he]
    congr 1
    simp only [List.length_append, List.length_cons, List.length_nil]
  · rw [he]
    simp only [List.length_drop, List.length_append, List.length_cons,
      List.length_nil]
    omega

/-! ## Claim theorems -/

/-- C3: for every objective list with nonnegative weights and every score
mapping containing a score for each configured objective, the fitness of
`_calculate_weighted_fitness` equals the weight-normalized sum
`Σ(weight · adjusted_score) / Σ(weight)`, where the adjusted score first
inverts to `1 - score` when the objective minimizes, then renormalizes by
the target range and clamps into [0,1]; and when the total weight is 0,
the fitness is exactly 0. -/
theorem claim_C3_weighted_fitness (objectives : List OptimizationObjective)
    (objective_scores : List (String × ℚ))
    (hs : ∀ o ∈ objectives, (objective_scores.lookup o.name).isSome)
    (hw : ∀ o ∈ objectives, 0 ≤ o.weight) :
    ((objectives.map (fun o => o.weight)).sum ≠ 0 →
      calculate_weighted_fitness objectives objective_scores =
        (objectives.map (fun o =>
          o.weight *
            (match o.target_range with
             | none =>
                 if o.minimize then 1 - (objective_scores.lookup o.name).getD 0
                 else (objective_scores.lookup o.name).getD 0
             | some lohi =>
                 min 1 (max 0
                   (((if o.minimize then 1 - (objective_scores.lookup o.name).getD 0
                      else (objective_scores.lookup o.name).getD 0) - lohi.1) /
                     (lohi.2 - lohi.1)))))).sum /
        (objectives.map (fun o => o.weight)).sum) ∧
    ((objectives.map (fun o => o.weight)).sum = 0 →
      calculate_weighted_fitness objectives objective_scores = 0) := by
  have key := wf_foldl_eq objective_scores objectives 0 0 hs
  have hcwf : calculate_weighted_fitness objectives objective_scores =
      if 0 < (objectives.map (fun o => o.weight)).sum then
        (objectives.map (fun o =>
          o.weight * adjust_score o ((objective_scores.lookup o.name).getD 0))).sum /
        (objectives.map (fun o => o.weight)).sum
      else 0 := by
    unfold calculate_weighted_fitness
    rw [key]
    simp
  have hmap : (objectives.map (fun o =>
      o.weight * adjust_score o ((objective_scores.lookup o.name).getD 0))) =
      (objectives.map (fun o =>
        o.weight *
          (match o.target_range with
           | none =>
               if o.minimize then 1 - (objective_scores.lookup o.name).getD 0
               else (objective_scores.lookup o.name).getD 0
           | some lohi =>
               min 1 (max 0
                 (((if o.minimize then 1 - (objective_scores.lookup o.name).getD 0
                    else (objective_scores.lookup o.name).getD 0) - lohi.1) /
                   (lohi.2 - lohi.1)))))) :=
    List.map_congr_left (fun o _ => by rw [adjust_score_eq])
  constructor
  · intro hne
    have hnn : 0 ≤ (objectives.map (fun o => o.weight)).sum := by
      apply List.sum_nonneg
      intro x hx
      obtain ⟨o, ho, rfl⟩ := List.mem_map.mp hx
      exact hw o ho
    have hpos : 0 < (objectives.map (fun o => o.weight)).sum :=
      lt_of_le_of_ne hnn (Ne.symm hne)
    rw [hcwf, if_pos hpos, hmap]
  · intro h0
    rw [hcwf, h0]
    simp

/-- Concrete instantiation of `claim_C3_weighted_fitness`: a single
maximizing objective of weight 1 with score 1/2 yields fitness 1/2. -/
theorem claim_C3_weighted_fitness_witness :
    calculate_weighted_fitness [⟨"accuracy", 1, false, none⟩]
      [("accuracy", 1/2)] = 1/2 := by
  have h := (claim_C3_weighted_fitness [⟨"accuracy", 1, false, none⟩]
    [("accuracy", 1/2)] (by decide) (by decide)).1 (by norm_num)
  exact h.trans (by norm_num)

/-- C5: the adaptation buffer never exceeds `2 × window_size` entries — as
an invariant of each buffer update and hence of every `predict_anomaly`
call — and a push that makes it exceed that bound trims it immediately to
exactly the most recent `window_size` entries (a suffix of the appended
buffer, so oldest entries are evicted first). -/
theorem claim_C5_buffer_bound (window_size : ℕ) :
    (∀ buf entries : List ReplayEntry, buf.length ≤ window_size * 2 →
      (update_adaptation_buffer window_size buf entries).length ≤ window_size * 2) ∧
    (∀ (buf : List ReplayEntry) (e : ReplayEntry),
      window_size * 2 < buf.length + 1 →
      buffer_push window_size buf e =
        (buf ++ [e]).drop (buf.length + 1 - window_size) ∧
      (buffer_push window_size buf e).length = window_size) ∧
    (∀ (st : SGMState) (X : List (List ℚ)) (now : ℕ) (st' : SGMState)
       (res : AnomalyPrediction),
      st.window_size = window_size →
      st.adaptation_buffer.length ≤ window_size * 2 →
      predict_anomaly st X now = some (st', res) →
      st'.adaptation_buffer.length ≤ window_size * 2) := by
  refine ⟨fun buf entries h => update_adaptation_buffer_le window_size entries buf h,
    fun buf e h => buffer_push_trim window_size buf e h, ?_⟩
  intro st X now st' res hw hb heq
  by_cases hf : st.is_fitted = false
  · simp [predict_anomaly, hf] at heq
  · simp only [predict_anomaly, if_neg hf, Option.some.injEq, Prod.mk.injEq] at heq
    obtain ⟨h1, _⟩ := heq
    rw [← h1]
    subst hw
    exact update_adaptation_buffer_le st.window_size _ st.adaptation_buffer hb

/-- Concrete instantiation of `claim_C5_buffer_bound`: with
`window_size = 1`, pushing onto a buffer of 2 entries trims it to the most
recent single entry. -/
theorem claim_C5_buffer_bound_witness :
    buffer_push 1 [⟨[], 0, false, 0⟩, ⟨[], 0, false, 1⟩] ⟨[], 0, false, 2⟩ =
      (([⟨[], 0, false, 0⟩, ⟨[], 0, false, 1⟩] : List ReplayEntry) ++
        ([⟨[], 0, false, 2⟩] : List ReplayEntry)).drop 2 ∧
    (buffer_push 1 [⟨[], 0, false, 0⟩, ⟨[], 0, false, 1⟩] ⟨[], 0, false, 2⟩).length
      = 1 :=
  (claim_C5_buffer_bound 1).2.1 [⟨[], 0, false, 0⟩, ⟨[], 0, false, 1⟩]
    ⟨[], 0, false, 2⟩ (by decide)

/-- C6: after `fit`, the calibrated anomaly threshold equals the
`(1 - anomaly_threshold) * 100` percentile of the baseline anomaly scores,
which are the negated log-densities of the preprocessed training samples
under the fitted mixture; with `anomaly_threshold = 0.05` this is the 95th
percentile. -/
theorem claim_C6_threshold_calibration (st : SGMState) (X : List (List ℚ))
    (preprocess : List ℚ → List ℚ) (log_dens : List ℚ → ℚ)
    (fitted : GMMParams) (now : ℕ) :
    ((fit st X preprocess log_dens fitted now).baseline_scores =
      (X.map preprocess).map (fun x => -(log_dens x))) ∧
    ((fit st X preprocess log_dens fitted now).calculated_threshold =
      percentile ((X.map preprocess).map (fun x => -(log_dens x)))
        ((1 - st.anomaly_threshold) * 100)) ∧
    (st.anomaly_threshold = 1/20 →
      (fit st X preprocess log_dens fitted now).calculated_threshold =
        percentile ((X.map preprocess).map (fun x => -(log_dens x))) 95) := by
  refine ⟨rfl, rfl, fun h => ?_⟩
  show percentile ((X.map preprocess).map (fun x => -(log_dens x)))
    ((1 - st.anomaly_threshold) * 100) = _
  rw [h]
  norm_num

/-- Concrete instantiation of `claim_C6_threshold_calibration`: fitting the
default model (anomaly_threshold 0.05) on two one-feature samples
calibrates the threshold to the 95th percentile of the two baseline
scores. -/
theorem claim_C6_threshold_calibration_witness :
    (fit default_sgm [[(1 : ℚ)], [2]] id (fun x => x.headD 0) ⟨[], [], []⟩
      0).calculated_threshold =
    percentile (([[(1 : ℚ)], [2]].map id).map (fun x => -(x.headD 0))) 95 :=
  (claim_C6_threshold_calibration default_sgm [[(1 : ℚ)], [2]] id
    (fun x => x.headD 0) ⟨[], [], []⟩ 0).2.2 (by norm_num [default_sgm])

theorem getD_map_lt {α β : Type} (f : α → β) (l : List α) (i : ℕ)
    (h : i < l.length) (d : β) (d' : α) :
    (l.map f).getD i d = f (l.getD i d') := by
  rw [List.getD_eq_getElem _ _ (by simpa using h), List.getElem_map,
    List.getD_eq_getElem _ _ h]

/-- C7: a scored row is flagged anomalous (reported among the anomaly
indices) iff its anomaly score strictly exceeds the calibrated threshold,
and its severity follows the chain normal / low / medium / high at
thresholds T, 2T, 3T. -/
theorem claim_C7_flag_and_severity (st : SGMState) (X : List (List ℚ))
    (now : ℕ) (st' : SGMState) (res : AnomalyPrediction)
    (heq : predict_anomaly st X now = some (st', res)) :
    ∀ i, i < X.length →
      ((i ∈ res.anomaly_indices ↔
          st.calculated_threshold < res.anomaly_scores.getD i 0) ∧
        res.anomaly_severity.getD i "" =
          (if res.anomaly_scores.getD i 0 < st.calculated_threshold then "normal"
           else if res.anomaly_scores.getD i 0 < 2 * st.calculated_threshold then "low"
           else if res.anomaly_scores.getD i 0 < 3 * st.calculated_threshold then "medium"
           else "high")) := by
  intro i hi
  by_cases hf : st.is_fitted = false
  · simp [predict_anomaly, hf] at heq
  · simp only [predict_anomaly, if_neg hf, Option.some.injEq, Prod.mk.injEq] at heq
    obtain ⟨h1, h2⟩ := heq
    subst h2
    have hsl : (X.map (fun x => -(st.log_density x))).length = X.length :=
      List.length_map X _
    have hi' : i < (X.map (fun x => -(st.log_density x))).length := by
      rw [hsl]; exact hi
    constructor
    · simp only [AnomalyPrediction.anomaly_indices, AnomalyPrediction.anomaly_scores]
      rw [List.mem_filter,
        getD_map_lt (fun s => decide (st.calculated_threshold < s)) _ i hi' false 0]
      simp only [List.mem_range, List.length_map, hsl, decide_eq_true_eq]
      constructor
      · exact fun h => h.2
      · exact fun h => ⟨hi, h⟩
    · simp only [AnomalyPrediction.anomaly_severity, AnomalyPrediction.anomaly_scores,
        calculate_anomaly_severity]
      rw [getD_map_lt _ _ i hi' "" 0]
      have h2T : st.calculated_threshold * 2 = 2 * st.calculated_threshold := mul_comm _ _
      have h3T : st.calculated_threshold * 3 = 3 * st.calculated_threshold := mul_comm _ _
      rw [h2T, h3T]

/-- Concrete instantiation of `claim_C7_flag_and_severity`: with threshold 1
and scores 5 and 0, row 0 is anomalous with severity high. -/
theorem claim_C7_flag_and_severity_witness :
    (0 ∈ pC7.2.anomaly_indices ↔
      fitted_sgm.calculated_threshold < pC7.2.anomaly_scores.getD 0 0) ∧
    pC7.2.anomaly_severity.getD 0 "" =
      (if pC7.2.anomaly_scores.getD 0 0 < fitted_sgm.calculated_threshold then "normal"
       else if pC7.2.anomaly_scores.getD 0 0 < 2 * fitted_sgm.calculated_threshold then "low"
       else if pC7.2.anomaly_scores.getD 0 0 < 3 * fitted_sgm.calculated_threshold then "medium"
       else "high") :=
  claim_C7_flag_and_severity fitted_sgm [[(5 : ℚ)], [0]] 0 pC7.1 pC7.2 rfl 0
    (by decide)

/-- C8: on a fitted model, `adapt_model` without force returns
`adapted=false` (not an error) while the buffer has fewer than
`window_size` entries; forced or not, it returns `adapted=false` (not an
error) when fewer than 10 buffered samples are non-anomalous; and an
adaptation only proceeds when neither precondition fails. -/
theorem claim_C8_adapt_preconditions (st : SGMState) (o : AdaptationOracle)
    (hf : st.is_fitted = true) :
    (st.adaptation_buffer.length < st.window_size →
      adapt_model st false o =
        .ok (st, ⟨false, some "insufficient_data", none, none⟩)) ∧
    (∀ force : Bool, count_normal st < 10 →
      adapt_model st force o =
        .ok (st, ⟨false, some "insufficient_data", none, none⟩) ∨
      adapt_model st force o =
        .ok (st, ⟨false, some "insufficient_normal_samples", none, none⟩)) ∧
    (∀ (force : Bool) (p : SGMState × AdaptationResult),
      adapt_model st force o = .ok p → p.2.adapted = true →
      (st.window_size ≤ st.adaptation_buffer.length ∨ force = true) ∧
      10 ≤ count_normal st) := by
  have hf' : ¬(st.is_fitted = false) := by simp [hf]
  refine ⟨?_, ?_, ?_⟩
  · intro hlt
    unfold adapt_model
    rw [if_neg hf', if_pos ⟨hlt, rfl⟩]
  · intro force hcount
    by_cases hgate : st.adaptation_buffer.length < st.window_size ∧ force = false
    · left
      obtain ⟨hlt, hforce⟩ := hgate
      subst hforce
      unfold adapt_model
      rw [if_neg hf', if_pos ⟨hlt, rfl⟩]
    · right
      unfold adapt_model count_normal at *
      rw [if_neg hf', if_neg hgate]
      exact if_pos hcount
  · intro force p heq hp
    unfold adapt_model at heq
    rw [if_neg hf'] at heq
    by_cases hgate : st.adaptation_buffer.length < st.window_size ∧ force = false
    · rw [if_pos hgate] at heq
      rw [← Except.ok.inj heq] at hp
      simp at hp
    · by_cases hcount : count_normal st < 10
      · rw [if_neg hgate] at heq
        unfold count_normal at hcount
        rw [if_pos hcount] at heq
        rw [← Except.ok.inj heq] at hp
        simp at hp
      · refine ⟨?_, not_lt.mp hcount⟩
        rcases Decidable.not_and_iff_or_not.mp hgate with h | h
        · exact Or.inl (not_lt.mp h)
        · exact Or.inr (Bool.not_eq_false force ▸ h)

/-- Concrete instantiation of `claim_C8_adapt_preconditions`: on the fitted
model with an empty buffer and window 1000, an unforced adaptation refuses
with `insufficient_data`. -/
theorem claim_C8_adapt_preconditions_witness :
    adapt_model fitted_sgm false oracle0 =
      .ok (fitted_sgm, ⟨false, some "insufficient_data", none, none⟩) :=
  (claim_C8_adapt_preconditions fitted_sgm oracle0 rfl).1 (by decide)

/-- C10: a refused adaptation is atomic — whenever `adapt_model` returns a
not-adapted result (buffer below `window_size` without force, or fewer than
10 non-anomalous buffered samples), the mixture parameters, calibrated
threshold, baseline scores and statistics, adaptation buffer, and
last-update timestamp — indeed the whole state — are unchanged. -/
theorem claim_C10_refusal_atomic (st : SGMState) (o : AdaptationOracle)
    (force : Bool) (st' : SGMState) (r : AdaptationResult)
    (hf : st.is_fitted = true)
    (heq : adapt_model st force o = .ok (st', r))
    (hna : r.adapted = false) :
    st'.gmm_model = st.gmm_model ∧
    st'.calculated_threshold = st.calculated_threshold ∧
    st'.baseline_scores = st.baseline_scores ∧
    st'.baseline_statistics = st.baseline_statistics ∧
    st'.adaptation_buffer = st.adaptation_buffer ∧
    st'.last_update = st.last_update ∧
    st' = st := by
  unfold adapt_model at heq
  rw [if_neg (by simp [hf])] at heq
  by_cases hgate : st.adaptation_buffer.length < st.window_size ∧ force = false
  · rw [if_pos hgate] at heq
    obtain ⟨h1, _⟩ := Prod.mk.injEq .. |>.mp (Except.ok.inj heq)
    subst h1
    exact ⟨rfl, rfl, rfl, rfl, rfl, rfl, rfl⟩
  · rw [if_neg hgate] at heq
    by_cases hcount : count_normal st < 10
    · unfold count_normal at hcount
      rw [if_pos hcount] at heq
      obtain ⟨h1, _⟩ := Prod.mk.injEq .. |>.mp (Except.ok.inj heq)
      subst h1
      exact ⟨rfl, rfl, rfl, rfl, rfl, rfl, rfl⟩
    · unfold count_normal at hcount
      rw [if_neg hcount] at heq
      obtain ⟨_, h2⟩ := Prod.mk.injEq .. |>.mp (Except.ok.inj heq)
      rw [← h2] at hna
      simp at hna

/-- Concrete instantiation of `claim_C10_refusal_atomic` at the refused
`insufficient_data` call of the fitted example model. -/
theorem claim_C10_refusal_atomic_witness :
    fitted_sgm.gmm_model = fitted_sgm.gmm_model ∧
    fitted_sgm.calculated_threshold = fitted_sgm.calculated_threshold ∧
    fitted_sgm.baseline_scores = fitted_sgm.baseline_scores ∧
    fitted_sgm.baseline_statistics = fitted_sgm.baseline_statistics ∧
    fitted_sgm.adaptation_buffer = fitted_sgm.adaptation_buffer ∧
    fitted_sgm.last_update = fitted_sgm.last_update ∧
    fitted_sgm = fitted_sgm :=
  claim_C10_refusal_atomic fitted_sgm oracle0 false fitted_sgm
    ⟨false, some "insufficient_data", none, none⟩ rfl rfl rfl

theorem dominates_go_self (objectives : List OptimizationObjective)
    (s : List (String × ℚ)) :
    ∀ b : Bool, dominates_go objectives s s b = b := by
  induction objectives with
  | nil => intro b; rfl
  | cons o rest ih =>
    intro b
    simp only [dominates_go]
    cases h : s.lookup o.name with
    | none => exact ih b
    | some v => cases hm : o.minimize <;> simp [lt_self_iff_false, ih]

theorem dominates_self (objectives : List OptimizationObjective)
    (s : List (String × ℚ)) : dominates objectives s s = false :=
  dominates_go_self objectives s false

theorem upf_cases (objectives : List OptimizationObjective)
    (front : List ParetoSolution) (params objective_scores : List (String × ℚ))
    (fitness : ℚ) :
    (front.any (fun e => dominates objectives e.objectives objective_scores) = true →
      update_pareto_front objectives front params objective_scores fitness = front) ∧
    (¬(front.any (fun e => dominates objectives e.objectives objective_scores) = true) →
      update_pareto_front objectives front params objective_scores fitness =
        (if 50 < ((front.filter
              (fun e => !(dominates objectives objective_scores e.objectives))) ++
            [(⟨params, objective_scores, fitness⟩ : ParetoSolution)]).length
         then (((front.filter
              (fun e => !(dominates objectives objective_scores e.objectives))) ++
            [(⟨params, objective_scores, fitness⟩ : ParetoSolution)]).insertionSort
              fit_ge).take 50
         else (front.filter
              (fun e => !(dominates objectives objective_scores e.objectives))) ++
            [(⟨params, objective_scores, fitness⟩ : ParetoSolution)])) := by
  constructor
  · intro h
    unfold update_pareto_front
    rw [if_pos h]
  · intro h
    unfold update_pareto_front
    rw [if_neg h]

/-- C2: after every `_update_pareto_front` call on a mutually non-dominated
front, the front is still mutually non-dominated; the 50-member capacity is
preserved; a solution dominated by an existing member leaves the front
unchanged; after a genuine insertion no remaining member is dominated by
the inserted solution; and any member evicted by the capacity bound has
fitness no higher than every surviving member. -/
theorem claim_C2_pareto_invariant (objectives : List OptimizationObjective)
    (front : List ParetoSolution) (params objective_scores : List (String × ℚ))
    (fitness : ℚ)
    (hInv : pairwise_nondominated objectives front) :
    pairwise_nondominated objectives
      (update_pareto_front objectives front params objective_scores fitness) ∧
    (front.length ≤ 50 →
      (update_pareto_front objectives front params objective_scores fitness).length
        ≤ 50) ∧
    ((∃ e ∈ front, dominates objectives e.objectives objective_scores = true) →
      update_pareto_front objectives front params objective_scores fitness = front) ∧
    ((¬ ∃ e ∈ front, dominates objectives e.objectives objective_scores = true) →
      ∀ e ∈ update_pareto_front objectives front params objective_scores fitness,
        dominates objectives objective_scores e.objectives = false) ∧
    ((¬ ∃ e ∈ front, dominates objectives e.objectives objective_scores = true) →
      ∀ b ∈ (front.filter
          (fun e => !(dominates objectives objective_scores e.objectives))) ++
          [(⟨params, objective_scores, fitness⟩ : ParetoSolution)],
        b ∉ update_pareto_front objectives front params objective_scores fitness →
        ∀ a ∈ update_pareto_front objectives front params objective_scores fitness,
          b.fitness ≤ a.fitness) := by
  by_cases hany :
    front.any (fun e => dominates objectives e.objectives objective_scores) = true
  · have hresult := (upf_cases objectives front params objective_scores fitness).1 hany
    rw [hresult]
    refine ⟨hInv, fun h => h, fun _ => rfl, ?_, ?_⟩
    · intro hno
      exact absurd (List.any_eq_true.mp hany) hno
    · intro hno
      exact absurd (List.any_eq_true.mp hany) hno
  · have hresult := (upf_cases objectives front params objective_scores fitness).2 hany
    have hnone : ∀ e ∈ front,
        dominates objectives e.objectives objective_scores = false := by
      intro e he
      cases hb : dominates objectives e.objectives objective_scores with
      | false => rfl
      | true => exact absurd (List.any_eq_true.mpr ⟨e, he, hb⟩) hany
    set sol : ParetoSolution := ⟨params, objective_scores, fitness⟩ with hsol
    set kept := front.filter
      (fun e => !(dominates objectives objective_scores e.objectives)) with hkept
    set front2 := kept ++ [sol] with hfront2
    have hsub : ∀ x ∈ update_pareto_front objectives front params objective_scores
        fitness, x ∈ front2 := by
      rw [hresult]
      split
      · intro x hx
        exact ((List.perm_insertionSort fit_ge front2).mem_iff).mp
          (List.take_subset _ _ hx)
      · intro x hx
        exact hx
    have hInv2 : pairwise_nondominated objectives front2 := by
      intro a ha b hb
      rcases List.mem_append.mp ha with ha' | ha' <;>
        rcases List.mem_append.mp hb with hb' | hb'
      · exact hInv a (List.mem_filter.mp ha').1 b (List.mem_filter.mp hb').1
      · rw [List.mem_singleton.mp hb']
        exact hnone a (List.mem_filter.mp ha').1
      · rw [List.mem_singleton.mp ha']
        have hfb := (List.mem_filter.mp hb').2
        simpa using hfb
      · rw [List.mem_singleton.mp ha', List.mem_singleton.mp hb']
        exact dominates_self objectives objective_scores
    refine ⟨?_, ?_, ?_, ?_, ?_⟩
    · intro a ha b hb
      exact hInv2 a (hsub a ha) b (hsub b hb)
    · intro hlen
      rw [hresult]
      split
      · next h50 => simp
      · next h50 => exact not_lt.mp h50
    · intro hex
      exact absurd (List.any_eq_true.mpr hex) hany
    · intro _ e he
      rcases List.mem_append.mp (hsub e he) with he' | he'
      · have := (List.mem_filter.mp he').2
        simpa using this
      · rw [List.mem_singleton.mp he']
        exact dominates_self objectives objective_scores
    · intro _ b hb hnotmem a ha
      rw [hresult] at hnotmem ha
      by_cases hlen : 50 < front2.length
      · rw [if_pos hlen] at hnotmem ha
        have hsorted : List.Sorted fit_ge (front2.insertionSort fit_ge) :=
          List.sorted_insertionSort fit_ge front2
        have hbsorted : b ∈ front2.insertionSort fit_ge :=
          ((List.perm_insertionSort fit_ge front2).mem_iff).mpr hb
        rw [← List.take_append_drop 50 (front2.insertionSort fit_ge)] at hbsorted
        rcases List.mem_append.mp hbsorted with hbt | hbd
        · exact absurd hbt hnotmem
        · have hpw : List.Pairwise fit_ge (front2.insertionSort fit_ge) := hsorted
          rw [← List.take_append_drop 50 (front2.insertionSort fit_ge)] at hpw
          exact (List.pairwise_append.mp hpw).2.2 a ha b hbd
      · rw [if_neg hlen] at hnotmem
        exact absurd hb hnotmem

/-- Concrete instantiation of `claim_C2_pareto_invariant`: inserting a first
solution into an empty front keeps it within capacity. -/
theorem claim_C2_pareto_invariant_witness :
    (update_pareto_front [⟨"accuracy", 1, false, none⟩] [] []
      [("accuracy", 1)] 1).length ≤ 50 :=
  (claim_C2_pareto_invariant [⟨"accuracy", 1, false, none⟩] [] []
    [("accuracy", 1)] 1 (fun a ha => absurd ha (List.not_mem_nil a))).2.1
    (by decide)

theorem clip_mem (x lo hi : ℚ) (h : lo ≤ hi) :
    lo ≤ clip x lo hi ∧ clip x lo hi ≤ hi :=
  ⟨le_min h (le_max_left lo x), min_le_left hi _⟩

theorem apply_bounds_bounded (bounds : Bounds) (position : List ℚ)
    (hb : ∀ p ∈ bounds, p.2.1 ≤ p.2.2) :
    ∀ k, k < (apply_bounds bounds position).length →
      (bounds.getD k ("", 0, 0)).2.1 ≤ (apply_bounds bounds position).getD k 0 ∧
      (apply_bounds bounds position).getD k 0 ≤ (bounds.getD k ("", 0, 0)).2.2 := by
  induction bounds generalizing position with
  | nil => intro k hk; simp [apply_bounds] at hk
  | cons b rest ih =>
    intro k hk
    cases position with
    | nil => simp [apply_bounds] at hk
    | cons p ps =>
      cases k with
      | zero =>
        simpa [apply_bounds] using
          clip_mem p b.2.1 b.2.2 (hb b (List.mem_cons_self b rest))
      | succ k' =>
        have hk' : k' < (apply_bounds rest ps).length := by
          simpa [apply_bounds] using hk
        simpa [apply_bounds] using
          ih ps (fun q hq => hb q (List.mem_cons_of_mem b hq)) k' hk'

theorem generate_random_position_bounded (bounds : Bounds) (us : List ℚ)
    (hb : ∀ p ∈ bounds, p.2.1 ≤ p.2.2) (hu : ∀ u ∈ us, 0 ≤ u ∧ u ≤ 1) :
    ∀ k, k < (generate_random_position bounds us).length →
      (bounds.getD k ("", 0, 0)).2.1 ≤
        (generate_random_position bounds us).getD k 0 ∧
      (generate_random_position bounds us).getD k 0 ≤
        (bounds.getD k ("", 0, 0)).2.2 := by
  induction bounds generalizing us with
  | nil => intro k hk; simp [generate_random_position] at hk
  | cons b rest ih =>
    intro k hk
    cases us with
    | nil => simp [generate_random_position] at hk
    | cons u vs =>
      cases k with
      | zero =>
        have hbb := hb b (List.mem_cons_self b rest)
        have huu := hu u (List.mem_cons_self u vs)
        simp only [generate_random_position, List.zipWith_cons_cons,
          List.getD_cons_zero]
        constructor
        · linarith [mul_nonneg huu.1 (sub_nonneg.mpr hbb)]
        · linarith [mul_le_of_le_one_left (sub_nonneg.mpr hbb) huu.2]
      | succ k' =>
        have hk' : k' < (generate_random_position rest vs).length := by
          simpa [generate_random_position] using hk
        simpa [generate_random_position] using
          ih vs (fun q hq => hb q (List.mem_cons_of_mem b hq))
            (fun w hw => hu w (List.mem_cons_of_mem u hw)) k' hk'

theorem move_candidate_bounded (bounds : Bounds)
    (awareness_probability flight_length : ℚ)
    (population memory_positions : List (List ℚ)) (i : ℕ) (mr : MoveRand)
    (hb : ∀ p ∈ bounds, p.2.1 ≤ p.2.2) :
    ∀ k, k < (move_candidate bounds awareness_probability flight_length
        population memory_positions i mr).length →
      (bounds.getD k ("", 0, 0)).2.1 ≤
        (move_candidate bounds awareness_probability flight_length
          population memory_positions i mr).getD k 0 ∧
      (move_candidate bounds awareness_probability flight_length
        population memory_positions i mr).getD k 0 ≤
        (bounds.getD k ("", 0, 0)).2.2 := by
  unfold move_candidate
  split
  · exact apply_bounds_bounded bounds _ hb
  · exact apply_bounds_bounded bounds _ hb

/-- C4: every candidate position lies within its declared per-axis
[min, max] bounds: immediately after population initialization (uniform
draws in [0,1] scaled into the axis ranges), and after every movement step
— both the follow-memory branch and the random-relocation branch of
`_update_population` are projected to bounds before being stored. -/
theorem claim_C4_bounds_invariant (bounds : Bounds)
    (hb : ∀ p ∈ bounds, p.2.1 ≤ p.2.2) :
    (∀ usMat : List (List ℚ), (∀ row ∈ usMat, ∀ u ∈ row, 0 ≤ u ∧ u ≤ 1) →
      ∀ pos ∈ initialize_population bounds usMat,
        ∀ k, k < pos.length →
          (bounds.getD k ("", 0, 0)).2.1 ≤ pos.getD k 0 ∧
          pos.getD k 0 ≤ (bounds.getD k ("", 0, 0)).2.2) ∧
    (∀ (awareness_probability flight_length : ℚ)
       (population memory_positions : List (List ℚ)) (i : ℕ) (mr : MoveRand),
      ∀ k, k < (move_candidate bounds awareness_probability flight_length
          population memory_positions i mr).length →
        (bounds.getD k ("", 0, 0)).2.1 ≤
          (move_candidate bounds awareness_probability flight_length
            population memory_positions i mr).getD k 0 ∧
        (move_candidate bounds awareness_probability flight_length
          population memory_positions i mr).getD k 0 ≤
          (bounds.getD k ("", 0, 0)).2.2) := by
  constructor
  · intro usMat hus pos hpos k hk
    obtain ⟨row, hrow, rfl⟩ := List.mem_map.mp hpos
    exact generate_random_position_bounded bounds row hb (hus row hrow) k hk
  · intro ap fl population memory i mr k hk
    exact move_candidate_bounded bounds ap fl population memory i mr hb k hk

/-- Concrete instantiation of `claim_C4_bounds_invariant`: a follow-memory
move that would land at 9 on the axis ("svm_C", 0, 1) is clipped back into
[0, 1]. -/
theorem claim_C4_bounds_invariant_witness :
    (([("svm_C", 0, 1)] : Bounds).getD 0 ("", 0, 0)).2.1 ≤
      (move_candidate [("svm_C", 0, 1)] 0 2 [[5]] [[7]] 0
        ⟨0, 1, 1, [1/2]⟩).getD 0 0 ∧
    (move_candidate [("svm_C", 0, 1)] 0 2 [[5]] [[7]] 0
      ⟨0, 1, 1, [1/2]⟩).getD 0 0 ≤
      (([("svm_C", 0, 1)] : Bounds).getD 0 ("", 0, 0)).2.2 :=
  (claim_C4_bounds_invariant [("svm_C", 0, 1)] (by decide)).2 0 2 [[5]] [[7]] 0
    ⟨0, 1, 1, [1/2]⟩ 0 (by decide)

theorem collect_one_fitness_values (objectives : List OptimizationObjective)
    (st : MOState) (i : ℕ) (oc : EvalOutcome) :
    (collect_one objectives st i oc).fitness_values =
      st.fitness_values.set i (outcome_fitness objectives oc) := by
  cases oc with
  | timeout => rfl
  | err => rfl
  | ok s =>
    dsimp only [collect_one, outcome_fitness]
    split <;> rfl

theorem collect_one_history (objectives : List OptimizationObjective)
    (st : MOState) (i : ℕ) (oc : EvalOutcome) :
    (collect_one objectives st i oc).convergence_history =
      st.convergence_history := by
  cases oc with
  | timeout => rfl
  | err => rfl
  | ok s =>
    dsimp only [collect_one]
    split <;> rfl

theorem collect_one_best (objectives : List OptimizationObjective)
    (st : MOState) (i : ℕ) (oc : EvalOutcome) :
    (collect_one objectives st i oc).best_fitness = st.best_fitness := by
  cases oc with
  | timeout => rfl
  | err => rfl
  | ok s =>
    dsimp only [collect_one]
    split <;> rfl

theorem collect_go_fitness_length (objectives : List OptimizationObjective)
    (ocs : List EvalOutcome) :
    ∀ (st : MOState) (base : ℕ),
      (collect_go objectives st base ocs).fitness_values.length =
        st.fitness_values.length := by
  induction ocs with
  | nil => intro st base; rfl
  | cons oc rest ih =>
    intro st base
    simp only [collect_go]
    rw [ih, collect_one_fitness_values, List.length_set]

theorem collect_go_history (objectives : List OptimizationObjective)
    (ocs : List EvalOutcome) :
    ∀ (st : MOState) (base : ℕ),
      (collect_go objectives st base ocs).convergence_history =
        st.convergence_history := by
  induction ocs with
  | nil => intro st base; rfl
  | cons oc rest ih =>
    intro st base
    simp only [collect_go]
    rw [ih, collect_one_history]

theorem collect_go_best (objectives : List OptimizationObjective)
    (ocs : List EvalOutcome) :
    ∀ (st : MOState) (base : ℕ),
      (collect_go objectives st base ocs).best_fitness = st.best_fitness := by
  induction ocs with
  | nil => intro st base; rfl
  | cons oc rest ih =>
    intro st base
    simp only [collect_go]
    rw [ih, collect_one_best]

theorem collect_go_getElem_lt (objectives : List OptimizationObjective)
    (ocs : List EvalOutcome) :
    ∀ (st : MOState) (base k : ℕ), k < base →
      (collect_go objectives st base ocs).fitness_values[k]? =
        st.fitness_values[k]? := by
  induction ocs with
  | nil => intro st base k _; rfl
  | cons oc rest ih =>
    intro st base k hk
    simp only [collect_go]
    rw [ih (collect_one objectives st base oc) (base + 1) k (by omega),
      collect_one_fitness_values, List.getElem?_set_ne (by omega)]

theorem collect_go_getElem (objectives : List OptimizationObjective)
    (ocs : List EvalOutcome) :
    ∀ (st : MOState) (base k : ℕ), k < ocs.length →
      base + ocs.length ≤ st.fitness_values.length →
      (collect_go objectives st base ocs).fitness_values[base + k]? =
        some (outcome_fitness objectives (ocs.getD k .err)) := by
  induction ocs with
  | nil => intro st base k hk _; exact absurd hk (Nat.not_lt_zero k)
  | cons oc rest ih =>
    intro st base k hk hlen
    rw [List.length_cons] at hlen
    cases k with
    | zero =>
      simp only [collect_go, List.getD_cons_zero, Nat.add_zero]
      rw [collect_go_getElem_lt objectives rest (collect_one objectives st base oc)
        (base + 1) base (by omega), collect_one_fitness_values,
        List.getElem?_set_self (by omega)]
    | succ k' =>
      have harith : base + (k' + 1) = (base + 1) + k' := by omega
      rw [harith]
      simp only [collect_go, List.getD_cons_succ]
      apply ih (collect_one objectives st base oc) (base + 1) k'
        (by simpa using hk)
      rw [collect_one_fitness_values, List.length_set]
      omega

theorem update_global_best_history (st : MOState) :
    (update_global_best st).convergence_history = st.convergence_history := by
  simp only [update_global_best]
  split <;> rfl

theorem update_global_best_mono (st : MOState) :
    st.best_fitness ≤ (update_global_best st).best_fitness := by
  simp only [update_global_best]
  split
  · next h => exact le_of_lt h
  · exact le_refl _

theorem iteration_step_best (objectives : List OptimizationObjective)
    (max_iterations : ℕ) (adaptive_parameters : Bool) (st : MOState)
    (iteration : ℕ) (inp : IterationInput) :
    (iteration_step objectives max_iterations adaptive_parameters st iteration
        inp).best_fitness =
      (update_global_best (collect_go objectives st 0 inp.outcomes)).best_fitness := by
  cases adaptive_parameters <;> rfl

theorem iteration_step_best_mono (objectives : List OptimizationObjective)
    (max_iterations : ℕ) (adaptive_parameters : Bool) (st : MOState)
    (iteration : ℕ) (inp : IterationInput) :
    st.best_fitness ≤
      (iteration_step objectives max_iterations adaptive_parameters st iteration
        inp).best_fitness := by
  rw [iteration_step_best]
  calc st.best_fitness
      = (collect_go objectives st 0 inp.outcomes).best_fitness :=
        (collect_go_best objectives inp.outcomes st 0).symm
    _ ≤ _ := update_global_best_mono _

theorem iteration_step_history_shape (objectives : List OptimizationObjective)
    (max_iterations : ℕ) (adaptive_parameters : Bool) (st : MOState)
    (iteration : ℕ) (inp : IterationInput) :
    (iteration_step objectives max_iterations adaptive_parameters st iteration
        inp).convergence_history =
      st.convergence_history ++
        [⟨iteration + 1,
          (iteration_step objectives max_iterations adaptive_parameters st
            iteration inp).best_fitness,
          (iteration_step objectives max_iterations adaptive_parameters st
            iteration inp).pareto_front.length⟩] := by
  cases adaptive_parameters <;>
    simp [iteration_step, adapt_csa_parameters, update_global_best_history,
      collect_go_history]

theorem iteration_step_history_length (objectives : List OptimizationObjective)
    (max_iterations : ℕ) (adaptive_parameters : Bool) (st : MOState)
    (iteration : ℕ) (inp : IterationInput) :
    (iteration_step objectives max_iterations adaptive_parameters st iteration
        inp).convergence_history.length = st.convergence_history.length + 1 := by
  rw [iteration_step_history_shape]
  simp

theorem iteration_step_preserves (objectives : List OptimizationObjective)
    (max_iterations : ℕ) (adaptive_parameters : Bool) (st : MOState)
    (iteration : ℕ) (inp : IterationInput)
    (h1 : ∀ r ∈ st.convergence_history, r.best_fitness ≤ st.best_fitness)
    (h2 : hist_mono_mo st.convergence_history) :
    (∀ r ∈ (iteration_step objectives max_iterations adaptive_parameters st
        iteration inp).convergence_history,
      r.best_fitness ≤
        (iteration_step objectives max_iterations adaptive_parameters st
          iteration inp).best_fitness) ∧
    hist_mono_mo (iteration_step objectives max_iterations adaptive_parameters st
      iteration inp).convergence_history := by
  have hmono := iteration_step_best_mono objectives max_iterations
    adaptive_parameters st iteration inp
  have hshape := iteration_step_history_shape objectives max_iterations
    adaptive_parameters st iteration inp
  constructor
  · intro r hr
    rw [hshape] at hr
    rcases List.mem_append.mp hr with h | h
    · exact le_trans (h1 r h) hmono
    · rw [List.mem_singleton.mp h]
  · rw [hshape]
    intro i j hij hj
    rw [List.length_append, List.length_cons, List.length_nil] at hj
    by_cases hjlen : j < st.convergence_history.length
    · rw [List.getD_append _ _ _ _ hjlen,
        List.getD_append _ _ _ _ (lt_of_le_of_lt hij hjlen)]
      exact h2 i j hij hjlen
    · have hjeq : j = st.convergence_history.length := by omega
      subst hjeq
      rw [List.getD_append_right _ _ _ _ (le_refl _)]
      simp only [Nat.sub_self, List.getD_cons_zero]
      by_cases hilen : i < st.convergence_history.length
      · rw [List.getD_append _ _ _ _ hilen]
        refine le_trans (h1 _ ?_) hmono
        rw [List.getD_eq_getElem _ _ hilen]
        exact List.getElem_mem _
      · have hieq : i = st.convergence_history.length := by omega
        subst hieq
        rw [List.getD_append_right _ _ _ _ (le_refl _)]
        simp only [Nat.sub_self, List.getD_cons_zero]
        exact le_refl _

theorem mo_fold_inv (objectives : List OptimizationObjective)
    (max_iterations : ℕ) (adaptive_parameters : Bool)
    (inputs : ℕ → IterationInput) :
    ∀ (n : ℕ) (st : MOState),
      (∀ r ∈ st.convergence_history, r.best_fitness ≤ st.best_fitness) →
      hist_mono_mo st.convergence_history →
      (∀ r ∈ ((List.range n).foldl
          (fun s it => iteration_step objectives max_iterations
            adaptive_parameters s it (inputs it)) st).convergence_history,
        r.best_fitness ≤
          ((List.range n).foldl
            (fun s it => iteration_step objectives max_iterations
              adaptive_parameters s it (inputs it)) st).best_fitness) ∧
      hist_mono_mo ((List.range n).foldl
        (fun s it => iteration_step objectives max_iterations
          adaptive_parameters s it (inputs it)) st).convergence_history := by
  intro n
  induction n with
  | zero => intro st h1 h2; exact ⟨h1, h2⟩
  | succ n ih =>
    intro st h1 h2
    rw [List.range_succ, List.foldl_append, List.foldl_cons, List.foldl_nil]
    obtain ⟨g1, g2⟩ := ih st h1 h2
    exact iteration_step_preserves objectives max_iterations adaptive_parameters
      _ n (inputs n) g1 g2

theorem mo_fold_history_length (objectives : List OptimizationObjective)
    (max_iterations : ℕ) (adaptive_parameters : Bool)
    (inputs : ℕ → IterationInput) :
    ∀ (n : ℕ) (st : MOState),
      ((List.range n).foldl
        (fun s it => iteration_step objectives max_iterations
          adaptive_parameters s it (inputs it)) st).convergence_history.length =
      st.convergence_history.length + n := by
  intro n
  induction n with
  | zero => intro st; rfl
  | succ n ih =>
    intro st
    rw [List.range_succ, List.foldl_append, List.foldl_cons, List.foldl_nil,
      iteration_step_history_length, ih]
    omega

theorem so_collect_one_best_mono (st : SOState) (i : ℕ) (f : WithBot ℚ) :
    st.best_fitness ≤ (so_collect_one st i f).best_fitness := by
  simp only [so_collect_one]
  split <;> split <;>
    first
      | exact le_refl _
      | (rename_i h; exact le_of_lt h)

theorem so_collect_one_history (st : SOState) (i : ℕ) (f : WithBot ℚ) :
    (so_collect_one st i f).convergence_history = st.convergence_history := by
  simp only [so_collect_one]
  split <;> split <;> rfl

theorem so_collect_go_best_mono (fits : List (WithBot ℚ)) :
    ∀ (st : SOState) (i : ℕ),
      st.best_fitness ≤ (so_collect_go st i fits).best_fitness := by
  induction fits with
  | nil => intro st i; exact le_refl _
  | cons f rest ih =>
    intro st i
    simp only [so_collect_go]
    exact le_trans (so_collect_one_best_mono st i f) (ih _ _)

theorem so_collect_go_history (fits : List (WithBot ℚ)) :
    ∀ (st : SOState) (i : ℕ),
      (so_collect_go st i fits).convergence_history = st.convergence_history := by
  induction fits with
  | nil => intro st i; rfl
  | cons f rest ih =>
    intro st i
    simp only [so_collect_go]
    rw [ih, so_collect_one_history]

theorem so_iteration_best (st : SOState) (fits : List (WithBot ℚ))
    (moves : List MoveRand) :
    (so_iteration st fits moves).best_fitness =
      (so_collect_go st 0 fits).best_fitness := rfl

theorem so_iteration_best_mono (st : SOState) (fits : List (WithBot ℚ))
    (moves : List MoveRand) :
    st.best_fitness ≤ (so_iteration st fits moves).best_fitness := by
  rw [so_iteration_best]
  exact so_collect_go_best_mono fits st 0

theorem so_iteration_history_shape (st : SOState) (fits : List (WithBot ℚ))
    (moves : List MoveRand) :
    (so_iteration st fits moves).convergence_history =
      st.convergence_history ++ [(so_iteration st fits moves).best_fitness] := by
  dsimp only [so_iteration]
  rw [so_collect_go_history]

theorem so_iteration_preserves (st : SOState) (fits : List (WithBot ℚ))
    (moves : List MoveRand)
    (h1 : ∀ r ∈ st.convergence_history, r ≤ st.best_fitness)
    (h2 : hist_mono_so st.convergence_history) :
    (∀ r ∈ (so_iteration st fits moves).convergence_history,
      r ≤ (so_iteration st fits moves).best_fitness) ∧
    hist_mono_so (so_iteration st fits moves).convergence_history := by
  have hmono := so_iteration_best_mono st fits moves
  have hshape := so_iteration_history_shape st fits moves
  constructor
  · intro r hr
    rw [hshape] at hr
    rcases List.mem_append.mp hr with h | h
    · exact le_trans (h1 r h) hmono
    · rw [List.mem_singleton.mp h]
  · rw [hshape]
    intro i j hij hj
    rw [List.length_append, List.length_cons, List.length_nil] at hj
    by_cases hjlen : j < st.convergence_history.length
    · rw [List.getD_append _ _ _ _ hjlen,
        List.getD_append _ _ _ _ (lt_of_le_of_lt hij hjlen)]
      exact h2 i j hij hjlen
    · have hjeq : j = st.convergence_history.length := by omega
      subst hjeq
      rw [List.getD_append_right _ _ _ _ (le_refl _)]
      simp only [Nat.sub_self, List.getD_cons_zero]
      by_cases hilen : i < st.convergence_history.length
      · rw [List.getD_append _ _ _ _ hilen]
        refine le_trans (h1 _ ?_) hmono
        rw [List.getD_eq_getElem _ _ hilen]
        exact List.getElem_mem _
      · have hieq : i = st.convergence_history.length := by omega
        subst hieq
        rw [List.getD_append_right _ _ _ _ (le_refl _)]
        simp only [Nat.sub_self, List.getD_cons_zero]
        exact le_refl _

theorem so_fold_inv (inputs : ℕ → List (WithBot ℚ) × List MoveRand) :
    ∀ (n : ℕ) (st : SOState),
      (∀ r ∈ st.convergence_history, r ≤ st.best_fitness) →
      hist_mono_so st.convergence_history →
      (∀ r ∈ ((List.range n).foldl
          (fun s it => so_iteration s (inputs it).1 (inputs it).2)
          st).convergence_history,
        r ≤ ((List.range n).foldl
          (fun s it => so_iteration s (inputs it).1 (inputs it).2)
          st).best_fitness) ∧
      hist_mono_so ((List.range n).foldl
        (fun s it => so_iteration s (inputs it).1 (inputs it).2)
        st).convergence_history := by
  intro n
  induction n with
  | zero => intro st h1 h2; exact ⟨h1, h2⟩
  | succ n ih =>
    intro st h1 h2
    rw [List.range_succ, List.foldl_append, List.foldl_cons, List.foldl_nil]
    obtain ⟨g1, g2⟩ := ih st h1 h2
    exact so_iteration_preserves _ (inputs n).1 (inputs n).2 g1 g2

/-- C1: a candidate whose parallel evaluation unit times out or raises gets
fitness exactly `-inf` (`⊥`), the collection loop still stores the
aggregated fitness of every successfully evaluated candidate, and
`optimize_multi_objective` always completes all `max_iterations` iterations
and returns a result (here: a total function whose reported
`iterations_completed` and convergence-history length equal
`max_iterations`). -/
theorem claim_C1_eval_failure_isolation (objectives : List OptimizationObjective)
    (st : MOState) (outcomes : List EvalOutcome)
    (hlen : outcomes.length ≤ st.fitness_values.length) :
    (∀ i, i < outcomes.length →
      (outcomes.getD i .err = .timeout ∨ outcomes.getD i .err = .err) →
      (collect_go objectives st 0 outcomes).fitness_values[i]? = some ⊥) ∧
    (∀ i scores, i < outcomes.length → outcomes.getD i .err = .ok scores →
      (collect_go objectives st 0 outcomes).fitness_values[i]? =
        some ((calculate_weighted_fitness objectives scores : ℚ) : WithBot ℚ)) ∧
    (∀ (bounds : Bounds) (ap fl : ℚ) (maxIter : ℕ) (adaptive : Bool)
       (usMat : List (List ℚ)) (inputs : ℕ → IterationInput),
      (optimize_multi_objective objectives bounds ap fl maxIter adaptive usMat
        inputs).iterations_completed = maxIter ∧
      (optimize_multi_objective objectives bounds ap fl maxIter adaptive usMat
        inputs).convergence_history.length = maxIter) := by
  refine ⟨?_, ?_, ?_⟩
  · intro i hi hio
    have h := collect_go_getElem objectives outcomes st 0 i hi (by simpa using hlen)
    rw [Nat.zero_add] at h
    rcases hio with h' | h' <;> rw [h'] at h <;> exact h
  · intro i scores hi hok
    have h := collect_go_getElem objectives outcomes st 0 i hi (by simpa using hlen)
    rw [Nat.zero_add, hok] at h
    exact h
  · intro bounds ap fl maxIter adaptive usMat inputs
    refine ⟨rfl, ?_⟩
    calc (optimize_multi_objective objectives bounds ap fl maxIter adaptive usMat
          inputs).convergence_history.length
        = ((List.range maxIter).foldl
            (fun s it => iteration_step objectives maxIter adaptive s it
              (inputs it))
            (mk_initial_state bounds ap fl usMat)).convergence_history.length := rfl
      _ = (mk_initial_state bounds ap fl
            usMat).convergence_history.length + maxIter :=
          mo_fold_history_length objectives maxIter adaptive inputs maxIter _
      _ = maxIter := by simp [mk_initial_state]

/-- Concrete instantiation of `claim_C1_eval_failure_isolation`: with two
candidates whose first evaluation raises and second succeeds, the first
fitness is `⊥` while the run reports both iterations. -/
theorem claim_C1_eval_failure_isolation_witness :
    (collect_go [⟨"accuracy", 1, false, none⟩]
      (mk_initial_state [("svm_C", 0, 1)] (1/10) 2 [[1/2], [1/2]]) 0
      [.err, .ok [("accuracy", 1)]]).fitness_values[0]? = some ⊥ :=
  (claim_C1_eval_failure_isolation [⟨"accuracy", 1, false, none⟩]
    (mk_initial_state [("svm_C", 0, 1)] (1/10) 2 [[1/2], [1/2]])
    [.err, .ok [("accuracy", 1)]] (by decide)).1 0 (by decide)
    (Or.inr (by decide))

/-- C9: the recorded global best fitness is monotonically non-decreasing
across iterations, for both the multi-objective loop
(`optimize_multi_objective`) and the single-objective loop
(`CrowSearchOptimizer.optimize`, embedded as `so_run`). -/
theorem claim_C9_best_monotone :
    (∀ (objectives : List OptimizationObjective) (bounds : Bounds) (ap fl : ℚ)
       (maxIter : ℕ) (adaptive : Bool) (usMat : List (List ℚ))
       (inputs : ℕ → IterationInput),
      hist_mono_mo (optimize_multi_objective objectives bounds ap fl maxIter
        adaptive usMat inputs).convergence_history) ∧
    (∀ (bounds : Bounds) (ap fl : ℚ) (maxIter : ℕ) (usMat : List (List ℚ))
       (inputs : ℕ → List (WithBot ℚ) × List MoveRand),
      hist_mono_so (so_run bounds ap fl maxIter usMat
        inputs).convergence_history) := by
  constructor
  · intro objectives bounds ap fl maxIter adaptive usMat inputs
    have h := (mo_fold_inv objectives maxIter adaptive inputs maxIter
      (mk_initial_state bounds ap fl usMat)
      (fun r hr => absurd hr (List.not_mem_nil r))
      (fun i j hij hj => by simp [mk_initial_state] at hj)).2
    exact h
  · intro bounds ap fl maxIter usMat inputs
    have h := (so_fold_inv inputs maxIter
      (so_initial_state bounds ap fl usMat)
      (fun r hr => absurd hr (List.not_mem_nil r))
      (fun i j hij hj => by simp [so_initial_state] at hj)).2
    exact h

/-- Concrete instantiation of `claim_C9_best_monotone` on a one-candidate,
one-iteration run. -/
theorem claim_C9_best_monotone_witness :
    ((optimize_multi_objective [⟨"accuracy", 1, false, none⟩] [("svm_C", 0, 1)]
        (1/10) 2 1 false [[1/2]]
        (fun _ => ⟨[.ok [("accuracy", 1)]],
          [⟨0, 0, 0, [1/2]⟩]⟩)).convergence_history.getD 0
      ⟨0, ⊥, 0⟩).best_fitness ≤
    ((optimize_multi_objective [⟨"accuracy", 1, false, none⟩] [("svm_C", 0, 1)]
        (1/10) 2 1 false [[1/2]]
        (fun _ => ⟨[.ok [("accuracy", 1)]],
          [⟨0, 0, 0, [1/2]⟩]⟩)).convergence_history.getD 0
      ⟨0, ⊥, 0⟩).best_fitness :=
  claim_C9_best_monotone.1 [⟨"accuracy", 1, false, none⟩] [("svm_C", 0, 1)]
    (1/10) 2 1 false [[1/2]]
    (fun _ => ⟨[.ok [("accuracy", 1)]], [⟨0, 0, 0, [1/2]⟩]⟩) 0 0 (le_refl 0)
    (by decide)

end IDS
